import Mathlib

/-!
Verification development for the saint-peter authentication/authorization
core: a shallow embedding of the credential stores (file-backed and
SQL-backed), the session issuer (authentication and token renewal), the
group authorization gate, the bootstrap routine, and the token header
decoder, together with theorems settling the specified properties.

Source files embedded (JavaScript):
- src/FileAuthDB.js  : flat-file credential store
- src/SQLAuthDB.js   : relational credential store (sequelize)
- src/index.js       : SaintPeter class (issuer, gates, bootstrap)
- src/jwt.js, src/JWT.js : token codec wrappers

Conventions of the embedding:
- JavaScript objects keyed by strings become association lists whose key
  order mirrors object insertion order; `key in obj` becomes a membership
  test on the first components.
- `async` functions that can throw become `Except JSError` computations;
  a rejected promise is `Except.error`.
- Epoch timestamps are integers (whole seconds); `Math.floor(Date.now()/1000)`
  and `(new Date()).getTime()/1000` both become the current instant `now`.
- Password hashing (`PasswordHandler`) is salted and non-deterministic, so
  it is passed in as an oracle `hash : String → String`, and verification
  as `verify : String → String → Bool` (candidate, storedHash).
-/

/-- Errors thrown inside the embedded JavaScript.  Message strings are
irrelevant to every property proved here, so errors are identified by kind. -/
inductive JSError where
  /-- A TypeError: property access or method call on `undefined`/`null`. -/
  | typeError
  /-- The `Error('User doesn t exist')` thrown by the membership operations. -/
  | userNotFound
  /-- Any other `Error(...)` thrown by application code. -/
  | genericError
deriving Repr, DecidableEq

/-- One value of the `users` object of the file store:
`\x7busername, password, groups, email, firstName, lastName\x7d`
as written by `FileAuthDB.addUser` (src/FileAuthDB.js).
The redundant `username` field inside the record is omitted: it always
equals the key it is stored under. -/
structure UserRec where
  password : String
  groups : List String
  email : String
  firstName : String
  lastName : String
deriving Repr, DecidableEq

/-- The parsed contents of the flat-file store after `initialize()`:
a JSON document with the two collections `users` (object keyed by
username) and `groups` (object keyed by group name; the metadata values
are always `\x7b\x7d` and carry no information). -/
structure FileDB where
  users : List (String × UserRec)
  groups : List String
deriving Repr, DecidableEq

/-- Top-level field access `this.fileContents.<name>`.  After
`initialize()` the object has exactly the fields `users` and `groups`;
any other field name yields JavaScript `undefined`, modelled as `none`. -/
inductive FCVal where
  | usersObj (u : List (String × UserRec))
  | groupsObj (g : List String)
deriving Repr

/-- Field lookup on `this.fileContents`. -/
def fileContentsField (db : FileDB) : String → Option FCVal
  | "users" => some (.usersObj db.users)
  | "groups" => some (.groupsObj db.groups)
  | _ => none

/-- The JavaScript `in` operator, `key in x`: raises a TypeError when `x`
is `undefined`; otherwise tests key membership. -/
def jsInOp (key : String) : Option FCVal → Except JSError Bool
  | none => .error .typeError
  | some (.usersObj u) => .ok (u.any (fun e => e.1 == key))
  | some (.groupsObj g) => .ok (g.contains key)

/-- Map an update over the record stored under key `u` (JavaScript mutates
the record in place, leaving object key order unchanged). -/
def updateUser (db : FileDB) (u : String) (f : UserRec → UserRec) : FileDB :=
  { db with users := db.users.map (fun e => if e.1 == u then (e.1, f e.2) else e) }

/-- FileAuthDB.authenticateUser:
`username in this.fileContents.users && await PasswordHandler.verifyPassword(...)`.
The conjunction short-circuits, so a missing user yields `false` without
any property access (never throws). -/
def fileAuthenticateUser (verify : String → String → Bool) (db : FileDB)
    (username password : String) : Bool :=
  match db.users.lookup username with
  | none => false
  | some r => verify password r.password

/-- FileAuthDB.getUserGroups: `this.fileContents.users[username].groups`;
property access on `undefined` throws when the user is absent. -/
def fileGetUserGroups (db : FileDB) (username : String) :
    Except JSError (List String) :=
  match db.users.lookup username with
  | none => .error .typeError
  | some r => .ok r.groups

/-- The projection returned by FileAuthDB.getUser. -/
structure UserView where
  username : String
  email : String
  firstName : String
  lastName : String
  groups : List String
deriving Repr, DecidableEq

/-- FileAuthDB.getUser: builds the view from
`this.fileContents.users[username]`; throws a TypeError when the user is
absent (property access on `undefined`). -/
def fileGetUser (db : FileDB) (username : String) : Except JSError UserView :=
  match db.users.lookup username with
  | none => .error .typeError
  | some r => .ok ⟨username, r.email, r.firstName, r.lastName, r.groups⟩

/-- FileAuthDB.addUser: `false` if the username key already exists,
otherwise store a fresh record with the hashed password, an empty group
array and blank `email`/`firstName`/`lastName`, persist, and return `true`. -/
def fileAddUser (hash : String → String) (db : FileDB)
    (username password : String) : Bool × FileDB :=
  if db.users.any (fun e => e.1 == username) then
    (false, db)
  else
    (true, { db with
      users := db.users ++ [(username, ⟨hash password, [], "", "", ""⟩)] })

/-- FileAuthDB.addGroup: `false` if the group key exists, else add it. -/
def fileAddGroup (db : FileDB) (group : String) : Bool × FileDB :=
  if db.groups.contains group then (false, db)
  else (true, { db with groups := db.groups ++ [group] })

/-- FileAuthDB.deleteGroup.  The source tests
`group in this.fileContents.group` — the object has no field named
`group` (the collections are `users` and `groups`), so the right operand
of `in` is `undefined` and the test itself throws a TypeError. -/
def fileDeleteGroup (db : FileDB) (group : String) :
    Except JSError (Bool × FileDB) := do
  let present ← jsInOp group (fileContentsField db "group")
  if !present then
    pure (false, db)
  else
    pure (true, { db with groups := db.groups.erase group })

/-- FileAuthDB.addUserToGroup: throws when the user is absent; pushes the
group onto the user record only when `indexOf(group) < 0` (an existing
membership is left untouched); persists and returns `true` either way. -/
def fileAddUserToGroup (db : FileDB) (username group : String) :
    Except JSError (Bool × FileDB) :=
  if !(db.users.any (fun e => e.1 == username)) then
    .error .userNotFound
  else
    .ok (true, updateUser db username (fun r =>
      if r.groups.contains group then r
      else { r with groups := r.groups ++ [group] }))

/-- FileAuthDB.removeUserFromGroup: throws when the user is absent;
splices out the first occurrence of the group when present (no-op
otherwise); resolves with the value of `writeJSONFile`, which is the
whole persisted state object (a truthy value, not the literal `true`). -/
def fileRemoveUserFromGroup (db : FileDB) (username group : String) :
    Except JSError FileDB :=
  if !(db.users.any (fun e => e.1 == username)) then
    .error .userNotFound
  else
    .ok (updateUser db username (fun r => { r with groups := r.groups.erase group }))

/-- One row of the `users` table of the SQL store (src/SQLAuthDB.js).
The autoincrement `id` and the timestamps play no role in any property
proved here and are omitted. -/
structure SQLUser where
  username : String
  password : String
  email : String
  firstName : String
  lastName : String
deriving Repr, DecidableEq

/-- The SQL store state: `users` rows (username unique), `groups` rows
(groupname unique) and the `user_groups` join table, unique on the
(username, groupname) pair. -/
structure SQLDB where
  users : List SQLUser
  groups : List String
  memberships : List (String × String)
deriving Repr, DecidableEq

/-- The sequelize models installed on the SQLAuthDB object by its
constructor: exactly the fields `User`, `Group` and `UserGroups`.
Any other field name is `undefined`. -/
inductive SQLModelField where
  | userModel
  | groupModel
  | userGroupsModel
deriving Repr, DecidableEq

/-- Field lookup on the SQLAuthDB object for its model fields. -/
def sqlClassField : String → Option SQLModelField
  | "User" => some .userModel
  | "Group" => some .groupModel
  | "UserGroups" => some .userGroupsModel
  | _ => none

/-- SQLAuthDB.getUserGroups: the groupnames of all join rows for the user. -/
def sqlGetUserGroups (db : SQLDB) (username : String) : List String :=
  (db.memberships.filter (fun m => m.1 == username)).map (fun m => m.2)

/-- SQLAuthDB.getGroups: all groupnames. -/
def sqlGetGroups (db : SQLDB) : List String := db.groups

/-- SQLAuthDB.addUser: hash the password, then `User.create`; a unique
constraint violation on an existing username is caught and reported as
`false` with the transaction rolled back (state unchanged). -/
def sqlAddUser (hash : String → String) (db : SQLDB)
    (username password : String) : Bool × SQLDB :=
  if db.users.any (fun u => u.username == username) then
    (false, db)
  else
    (true, { db with users := db.users ++ [⟨username, hash password, "", "", ""⟩] })

/-- SQLAuthDB.addGroup: `Group.create`; unique violation caught → `false`. -/
def sqlAddGroup (db : SQLDB) (group : String) : Bool × SQLDB :=
  if db.groups.contains group then (false, db)
  else (true, { db with groups := db.groups ++ [group] })

/-- SQLAuthDB.deleteGroup.  The source looks the row up with `findOne`,
then tests `if (!groupname)` — the *argument string*, not the fetched
row — and finally calls `this.Groups.destroy(...)`, but the constructor
defined the model as `this.Group`, so `this.Groups` is `undefined` and
the method call throws a TypeError before the row is ever deleted. -/
def sqlDeleteGroup (db : SQLDB) (groupname : String) :
    Except JSError (Bool × SQLDB) :=
  let _row := db.groups.find? (fun g => g == groupname)
  if groupname = "" then
    .ok (false, db)
  else
    match sqlClassField "Groups" with
    | none => .error .typeError
    | some _ => .ok (true, { db with groups := db.groups.erase groupname })

/-- SQLAuthDB.addUserToGroup: `UserGroups.create` inside try/catch.  The
join table is unique on (username, groupname) and carries foreign keys to
the users and groups tables, so the insert throws — and the catch returns
`false` — when the membership already exists or a referenced row is
missing; only a genuinely new, well-referenced membership yields `true`. -/
def sqlAddUserToGroup (db : SQLDB) (username group : String) : Bool × SQLDB :=
  if db.memberships.contains (username, group) then
    (false, db)
  else if !(db.users.any (fun u => u.username == username)) ||
          !(db.groups.contains group) then
    (false, db)
  else
    (true, { db with memberships := db.memberships ++ [(username, group)] })

/-- SQLAuthDB.removeUserFromGroup: destroys any matching join rows and
resolves with no value (JavaScript `undefined`, a falsy result); it never
checks that the user exists. -/
def sqlRemoveUserFromGroup (db : SQLDB) (username group : String) : SQLDB :=
  { db with memberships := db.memberships.filter (fun m => m ≠ (username, group)) }

/-- The payload this system signs into its tokens (src/index.js,
`jwt.encodeToken(\x7bexp, renewalExpirationDate, username, groups, ...\x7d)`).
`groups` is an `Option` because the authorization gate explicitly tests
`'groups' in decodedToken`; the `id` and `iss` fields are never consulted
by any property proved here and are omitted. -/
structure Claims where
  exp : Int
  renewalExpirationDate : Int
  username : String
  groups : Option (List String)
  email : String
  firstName : String
  lastName : String
deriving Repr, DecidableEq

/-- A compact signed token as seen by the verifier: its decoded payload
together with whether its signature verifies under the configured secret. -/
structure SignedToken where
  claims : Claims
  sigValid : Bool
deriving Repr, DecidableEq

/-- Verification failures surfaced by the token codec. -/
inductive JwtError where
  | invalidSignature
  | expired
deriving Repr, DecidableEq

/-- Modelled from the spec: the Token Codec (§4.3, the `jsonwebtoken`
dependency behind src/jwt.js) is not part of this repository.  Per the
spec, `decode` fails with `InvalidSignature` or `Expired` depending on
cause, and under the `ignoreExpiration` option signature validity is
still mandatory while only the expiry check is skipped; a token is
expired once the clock reaches `exp`. -/
def jwtVerify (t : SignedToken) (ignoreExpiration : Bool) (now : Int) :
    Except JwtError Claims :=
  if !t.sigValid then
    .error .invalidSignature
  else if !ignoreExpiration && t.claims.exp ≤ now then
    .error .expired
  else
    .ok t.claims

/-- An HTTP response as the transport sees it: status code, the `success`
flag of the JSON body, and its optional `message` field. -/
structure HttpResponse where
  status : Nat
  success : Bool
  message : Option String
deriving Repr, DecidableEq

/-- Outcome of the authentication endpoint. -/
inductive AuthOutcome where
  /-- A 200 response carrying the freshly signed token payload. -/
  | issued (token : Claims)
  /-- A failure response (the uniform 401). -/
  | fail (r : HttpResponse)
  /-- An uncaught exception escaping to the express error handler
  (unreachable on the paths proved below). -/
  | serverError
deriving Repr, DecidableEq

/-- The relevant configuration of the SaintPeter instance. -/
structure Config where
  tokenLifetime : Int
  tokenIdleTimeout : Int
  defaultUsername : String
  defaultPassword : String
  defaultGroup : String
deriving Repr, DecidableEq

/-- SaintPeter.authenticateParsedRequest (src/index.js): authenticate via
the store; any `false` answer — unknown username or wrong password alike —
and any store exception produce the same literal response
`401 \x7bsuccess: false\x7d`.  On success the profile is fetched and a token
signed with `exp = now + tokenLifetime` and
`renewalExpirationDate = exp + tokenIdleTimeout`. -/
def authenticateParsedRequest (verify : String → String → Bool) (cfg : Config)
    (db : FileDB) (username password : String) (now : Int) : AuthOutcome :=
  if !(fileAuthenticateUser verify db username password) then
    .fail ⟨401, false, none⟩
  else
    match fileGetUser db username with
    | .error _ => .serverError
    | .ok u =>
      .issued ⟨now + cfg.tokenLifetime,
               now + cfg.tokenLifetime + cfg.tokenIdleTimeout,
               username, some u.groups, u.email, u.firstName, u.lastName⟩

/-- Outcome of the token renewal endpoint. -/
inductive RenewOutcome where
  /-- A 200 response carrying the newly signed token payload. -/
  | renewed (token : Claims)
  /-- The uniform failure response of the catch block. -/
  | fail (r : HttpResponse)
deriving Repr, DecidableEq

/-- SaintPeter.renewTokenParsedRequest (src/index.js): decode the header
token with `ignoreExpiration: true` (signature still checked); throw when
`renewalExpirationDate < now`; re-fetch the subject's current profile and
groups from the store (the cached claims are not trusted); sign a new
token with `exp = now + tokenLifetime` and
`renewalExpirationDate = exp + tokenIdleTimeout`.  Every throw lands in
the catch block, which answers `401 \x7bsuccess: false, message: 'Expired
token'\x7d`.  No password is consulted anywhere on this path. -/
def renewTokenParsedRequest (cfg : Config) (db : FileDB)
    (t : SignedToken) (now : Int) : RenewOutcome :=
  match jwtVerify t true now with
  | .error _ => .fail ⟨401, false, some "Expired token"⟩
  | .ok tok =>
    if tok.renewalExpirationDate < now then
      .fail ⟨401, false, some "Expired token"⟩
    else
      match fileGetUser db tok.username with
      | .error _ => .fail ⟨401, false, some "Expired token"⟩
      | .ok u =>
        .renewed ⟨now + cfg.tokenLifetime,
                  now + cfg.tokenLifetime + cfg.tokenIdleTimeout,
                  tok.username, some u.groups, u.email, u.firstName, u.lastName⟩

/-- What the group gate middleware does with a request. -/
inductive GateOutcome where
  /-- The middleware called `next()`: access permitted. -/
  | next
  /-- The uniform denial response of the catch block. -/
  | forbidden (r : HttpResponse)
deriving Repr, DecidableEq

/-- The distinct errors thrown inside the `try` of `allowGroups` before
the catch block collapses them. -/
inductive GateError where
  | jwt (e : JwtError)
  | noGroupsInToken
  | js (e : JSError)
  | forbiddenErr
deriving Repr, DecidableEq

/-- The try block of the static SaintPeter.allowGroups (src/index.js):
decode the bearer token; throw `No groups in token` when the payload has
no `groups` field; call `next()` as soon as a token group occurs in the
allow list; otherwise, only `if (this.authDB)`, re-fetch the subject's
current groups from the store and retest; finally throw `Forbidden`.
`allowGroups` is a *static* method, so `this` is the SaintPeter class
object itself, which never carries an `authDB` property — in every use
the repository makes of this gate the fallback is skipped; `authDB` here
models that possibly-undefined field. -/
def allowGroupsTry (allowed : List String) (authDB : Option FileDB)
    (decodeRes : Except JwtError Claims) : Except GateError Unit := do
  let tok ← decodeRes.mapError .jwt
  match tok.groups with
  | none => throw .noGroupsInToken
  | some tgs =>
    if tgs.any (fun g => allowed.contains g) then
      pure ()
    else
      match authDB with
      | some db =>
        match fileGetUserGroups db tok.username with
        | .error e => throw (.js e)
        | .ok ugs =>
          if ugs.any (fun g => allowed.contains g) then
            pure ()
          else
            throw .forbiddenErr
      | none => throw .forbiddenErr

/-- SaintPeter.allowGroups: the try block above wrapped in the catch that
maps every error to the one literal response
`403 \x7bsuccess: false, message: 'Forbidden'\x7d`. -/
def allowGroups (allowed : List String) (authDB : Option FileDB)
    (decodeRes : Except JwtError Claims) : GateOutcome :=
  match allowGroupsTry allowed authDB decodeRes with
  | .ok _ => .next
  | .error _ => .forbidden ⟨403, false, some "Forbidden"⟩

/-- The JavaScript `String.prototype.split(' ')` on a single-space
separator, written over the character list so that it evaluates inside
the kernel: consecutive separators yield empty segments and the empty
string yields one empty segment, as in JavaScript. -/
def splitChars : List Char → List (List Char)
  | [] => [[]]
  | c :: cs =>
    let r := splitChars cs
    if c = ' ' then [] :: r
    else (c :: r.headD []) :: r.tail

/-- The JavaScript `header.split(' ')` as a list of strings. -/
def jsSplitSpace (s : String) : List String :=
  (splitChars s.data).map (fun cs => String.mk cs)

/-- The JavaScript `String.prototype.toLowerCase()` over the character list. -/
def jsToLower (s : String) : String := String.mk (s.data.map Char.toLower)

/-- Reasons a promise from the token decoders can reject. -/
inductive RejectReason where
  /-- The object `\x7bname: 'AuthorizationHeaderParseError', ...\x7d` passed to
  `reject` when the header is present but not of the shape `bearer <token>`. -/
  | headerParseError
  /-- A verification error forwarded from the codec. -/
  | jwt (e : JwtError)
deriving Repr, DecidableEq

/-- The observable state of the promise a decoder returns: JavaScript
promises either settle (resolve or reject) or stay pending forever when
the executor finishes without calling either continuation. -/
inductive PromiseState where
  | resolved (c : Claims)
  | rejected (e : RejectReason)
  | pending
deriving Repr, DecidableEq

/-- The request surface the decoders consult: `req.get('Authorization')`. -/
structure HttpRequest where
  authorization : Option String
deriving Repr, DecidableEq

/-- decodeToken of src/JWT.js.  The executor runs only inside
`if (authHeader) \x7b...\x7d`: with no Authorization header it returns without
ever calling `resolve` or `reject`, leaving the promise pending forever.
With a header present it splits on spaces; a first part reading `bearer`
(case-insensitively) with at least two parts verifies the second part,
and anything else rejects with `AuthorizationHeaderParseError`. -/
def decodeTokenJWT (req : HttpRequest)
    (verify : String → Except JwtError Claims) : PromiseState :=
  match req.authorization with
  | none => .pending
  | some h =>
    let parts := jsSplitSpace h
    if 2 ≤ parts.length ∧ jsToLower (parts.headD "") = "bearer" then
      match verify (parts.getD 1 "") with
      | .ok c => .resolved c
      | .error e => .rejected (.jwt e)
    else
      .rejected .headerParseError

/-- A JavaScript value that `getUsers()` can return, as far as the
bootstrap's `users.length` test can observe it: the file store returns
the raw `users` *object*, the SQL store an *array* of rows. -/
inductive UsersVal where
  | objMap (entries : List (String × UserRec))
  | arr (len : Nat)
deriving Repr, DecidableEq

/-- The `length` property: arrays carry their element count; a plain
object has no `length` property, so the access yields `undefined`. -/
def UsersVal.lengthProp : UsersVal → Option Nat
  | .objMap _ => none
  | .arr n => some n

/-- The comparison `x <= 0` as JavaScript evaluates it on a possibly
`undefined` left operand: `undefined` coerces to NaN and every NaN
comparison is false. -/
def jsLeZero : Option Nat → Bool
  | none => false
  | some n => n ≤ 0

/-- FileAuthDB.getUsers of the current source: `return this.fileContents.users`
— the whole keyed object, not an array. -/
def fileGetUsersVal (db : FileDB) : UsersVal := .objMap db.users

/-- SQLAuthDB.getUsers: `User.findAll(...)` mapped over rows — an array. -/
def sqlGetUsersVal (db : SQLDB) : UsersVal := .arr db.users.length

/-- SaintPeter.initializeDB (src/index.js) running over the file backend:
`if (users.length <= 0)` create the default user, ensure the default
group exists, and add the user to it.  `getUsers()` hands back the users
object, whose `length` is `undefined`, so the guard is evaluated through
`jsLeZero`. -/
def fileInitializeDB (hash : String → String) (cfg : Config) (db : FileDB) :
    Except JSError FileDB := do
  let users := fileGetUsersVal db
  if jsLeZero users.lengthProp then
    let db1 := (fileAddUser hash db cfg.defaultUsername cfg.defaultPassword).2
    let db2 :=
      if db1.groups.contains cfg.defaultGroup then db1
      else (fileAddGroup db1 cfg.defaultGroup).2
    let r ← fileAddUserToGroup db2 cfg.defaultUsername cfg.defaultGroup
    pure r.2
  else
    pure db

/-- SaintPeter.initializeDB running over the SQL backend: same
orchestration, but `getUsers()` returns an array so `length` is its
actual element count. -/
def sqlInitializeDB (hash : String → String) (cfg : Config) (db : SQLDB) :
    SQLDB :=
  let users := sqlGetUsersVal db
  if jsLeZero users.lengthProp then
    let db1 := (sqlAddUser hash db cfg.defaultUsername cfg.defaultPassword).2
    let db2 :=
      if (sqlGetGroups db1).contains cfg.defaultGroup then db1
      else (sqlAddGroup db1 cfg.defaultGroup).2
    (sqlAddUserToGroup db2 cfg.defaultUsername cfg.defaultGroup).2
  else
    db

/-! Concrete inputs used by the closed theorems and witnesses below. -/

/-- A concrete stand-in for the salted password hasher. -/
def hashX : String → String := fun p => String.append "H:" p

/-- The matching verification oracle. -/
def verifyX : String → String → Bool :=
  fun cand stored => stored == String.append "H:" cand

/-- A concrete configuration (lifetime 10s, idle timeout 5s, defaults admin). -/
def cfgX : Config := ⟨10, 5, "admin", "admin", "admin"⟩

/-- A stored record for user alice. -/
def recW : UserRec := ⟨"H:pw", ["ops"], "", "", ""⟩

/-- A file store holding alice in group ops. -/
def dbW : FileDB := ⟨[("alice", recW)], ["ops"]⟩

/-- An SQL store where the membership (alice, ops) already exists. -/
def sdbC4 : SQLDB := ⟨[⟨"alice", "H:pw", "", "", ""⟩], ["ops"], [("alice", "ops")]⟩

/-- A token issued while user u was only in group A. -/
def tokC2 : Claims := ⟨100, 200, "u", some ["A"], "", "", ""⟩

/-- The store at token issuance: u belongs to A only. -/
def dbC2 : FileDB := ⟨[("u", ⟨"H", ["A"], "", "", ""⟩)], ["A"]⟩

/-- The store after u has additionally been added to group B. -/
def dbC2B : FileDB := ⟨[("u", ⟨"H", ["A", "B"], "", "", ""⟩)], ["A"]⟩

/-- A signature-valid token with exp and renewal deadline both 5000. -/
def stX : SignedToken := ⟨⟨5000, 5000, "u", some ["A"], "", "", ""⟩, true⟩

/-- The SQL store produced by a successful bootstrap with the defaults. -/
def adminSQL : SQLDB :=
  ⟨[⟨"admin", hashX "admin", "", "", ""⟩], ["admin"], [("admin", "admin")]⟩

/-- A token for alice carrying her cached group ops. -/
def tokW9 : Claims := ⟨100, 200, "alice", some ["ops"], "", "", ""⟩

/-- A decode oracle that rejects everything (header-shape tests only). -/
def verifyNone : String → Except JwtError Claims := fun _ => .error .invalidSignature

/-- C3: the spec says deleteGroup returns false when the group is absent
and true after removing it, throwing in neither case.  Both backends
instead throw a TypeError on every input with a non-empty group name,
present or absent: the file store tests membership on the misspelled
field `fileContents.group` (undefined), and the SQL store invokes
`this.Groups.destroy` although only `this.Group` was ever defined. -/
theorem deleteGroup_always_throws :
    fileDeleteGroup ⟨[], ["admin"]⟩ "admin" = .error .typeError ∧
    fileDeleteGroup ⟨[], ["admin"]⟩ "ghost" = .error .typeError ∧
    sqlDeleteGroup ⟨[], ["admin"], []⟩ "admin" = .error .typeError ∧
    sqlDeleteGroup ⟨[], ["admin"], []⟩ "ghost" = .error .typeError :=
  ⟨rfl, rfl, rfl, rfl⟩

/-- C8: bootstrap over the file backend is a no-op on *every* store —
`getUsers()` returns the users object, whose `length` property is
undefined, and `undefined <= 0` is false — so on an empty file store no
default user is ever created, contrary to the claim (and to the doc
comment of initializeDB).  Over the SQL backend, whose getUsers returns
an array, bootstrap on the empty store yields exactly one user admin in
exactly one group admin, and a second run changes nothing. -/
theorem bootstrap_file_noop_sql_singleton :
    (∀ db : FileDB, fileInitializeDB hashX cfgX db = .ok db) ∧
    fileInitializeDB hashX cfgX ⟨[], []⟩ = .ok ⟨[], []⟩ ∧
    sqlInitializeDB hashX cfgX ⟨[], [], []⟩ = adminSQL ∧
    sqlInitializeDB hashX cfgX adminSQL = adminSQL :=
  ⟨fun _ => rfl, rfl, rfl, rfl⟩

/-- C2: adding user u to group B in the store does make the fallback
re-check succeed when the gate actually holds a store — but allowGroups
is a static method, so in every use the repository makes of it `this` is
the SaintPeter class and `this.authDB` is undefined: the fallback is
skipped and the very scenario the spec promises is denied. -/
theorem allowGroups_fallback_requires_authdb :
    fileAddUserToGroup dbC2 "u" "B" = .ok (true, dbC2B) ∧
    allowGroups ["B"] (some dbC2B) (jwtVerify ⟨tokC2, true⟩ false 0) = .next ∧
    allowGroups ["B"] none (jwtVerify ⟨tokC2, true⟩ false 0) =
      .forbidden ⟨403, false, some "Forbidden"⟩ :=
  ⟨rfl, rfl, rfl⟩

/-- Helper: a successful lookup means some entry carries the key. -/
theorem lookup_some_any {l : List (String × UserRec)} {u : String} {r : UserRec}
    (h : l.lookup u = some r) : l.any (fun e => e.1 == u) = true := by
  induction l with
  | nil => simp [List.lookup] at h
  | cons e t ih =>
    by_cases hk : e.1 = u
    · simp [List.any_cons, hk]
    · rw [List.lookup] at h
      have hne : (u == e.1) = false := by simp [Ne.symm hk]
      rw [hne] at h
      simp [List.any_cons, hk, ih h]

/-- Helper: a failed lookup means no entry carries the key. -/
theorem lookup_none_any {l : List (String × UserRec)} {u : String}
    (h : l.lookup u = none) : l.any (fun e => e.1 == u) = false := by
  induction l with
  | nil => simp
  | cons e t ih =>
    by_cases hk : e.1 = u
    · rw [List.lookup] at h
      have : (u == e.1) = true := by simp [hk]
      rw [this] at h
      exact absurd h (by simp)
    · rw [List.lookup] at h
      have hne : (u == e.1) = false := by simp [Ne.symm hk]
      rw [hne] at h
      simp [List.any_cons, hk, ih h]

/-- Helper: with nodup keys, lookup of a member entry's key finds it. -/
theorem lookup_of_mem_nodup {l : List (String × UserRec)}
    (hnd : (l.map Prod.fst).Nodup) {a : String × UserRec} (ha : a ∈ l) :
    l.lookup a.1 = some a.2 := by
  induction l with
  | nil => simp at ha
  | cons e t ih =>
    rw [List.map_cons] at hnd
    rcases List.nodup_cons.mp hnd with ⟨hnotin, hndt⟩
    rcases List.mem_cons.mp ha with rfl | hat
    · rw [List.lookup]
      simp
    · have hne : e.1 ≠ a.1 := by
        intro hcontra
        exact hnotin (hcontra ▸ List.mem_map_of_mem Prod.fst hat)
      rw [List.lookup]
      have : (a.1 == e.1) = false := by simp [Ne.symm hne]
      rw [this]
      exact ih hndt hat

/-- Helper: `updateUser` with a pointwise-identity update is the identity
when the object's keys are unique (as JavaScript object keys are). -/
theorem map_update_eq_self {u : String} {f : UserRec → UserRec}
    {l : List (String × UserRec)}
    (hnd : (l.map Prod.fst).Nodup)
    (hf : ∀ r, l.lookup u = some r → f r = r) :
    l.map (fun e => if e.1 == u then (e.1, f e.2) else e) = l := by
  have : ∀ a ∈ l, (if a.1 == u then (a.1, f a.2) else a) = a := by
    intro a ha
    by_cases hk : a.1 = u
    · subst hk
      have hfa : f a.2 = a.2 := hf a.2 (lookup_of_mem_nodup hnd ha)
      simp [hfa]
    · simp [hk]
  exact (List.map_congr_left this).trans (List.map_id l)


/-- Helper: `updateUser` with a pointwise-identity update is the identity
when the object's keys are unique (as JavaScript object keys are). -/
theorem updateUser_eq_self {db : FileDB} {u : String} {f : UserRec → UserRec}
    (hnd : (db.users.map Prod.fst).Nodup)
    (hf : ∀ r, db.users.lookup u = some r → f r = r) :
    updateUser db u f = db := by
  unfold updateUser
  rw [map_update_eq_self hnd hf]

/-- C4 counterexample: in the SQL store, adding a membership that already
exists is answered with `false` — the unique-constraint violation of
`UserGroups.create` is caught and reported as failure — not with the
`true` the claim demands (the state is indeed left unchanged). -/
theorem sql_addUserToGroup_existing_membership :
    sqlAddUserToGroup sdbC4 "alice" "ops" = (false, sdbC4) := rfl

/-- C4 (amended): in the *file* store, addUserToGroup returns true and
leaves the state unchanged when the membership already exists,
removeUserFromGroup resolves successfully with the unchanged state when
the membership is absent, and both throw the NotFound error exactly when
the user is absent; the SQL store instead answers false (state unchanged)
for an existing membership. -/
theorem membership_idempotent_amended
    (db : FileDB) (sdb : SQLDB) (u g : String)
    (hnd : (db.users.map Prod.fst).Nodup) :
    (∀ r, db.users.lookup u = some r →
      (g ∈ r.groups → fileAddUserToGroup db u g = .ok (true, db)) ∧
      (g ∉ r.groups → fileRemoveUserFromGroup db u g = .ok db)) ∧
    (db.users.lookup u = none →
      fileAddUserToGroup db u g = .error .userNotFound ∧
      fileRemoveUserFromGroup db u g = .error .userNotFound) ∧
    ((u, g) ∈ sdb.memberships → sqlAddUserToGroup sdb u g = (false, sdb)) := by
  refine ⟨?_, ?_, ?_⟩
  · intro r hr
    have hany := lookup_some_any hr
    constructor
    · intro hg
      have hid : updateUser db u (fun r => if r.groups.contains g then r
          else { r with groups := r.groups ++ [g] }) = db := by
        apply updateUser_eq_self hnd
        intro r2 hr2
        rw [hr] at hr2
        have hrr : r2 = r := (Option.some.inj hr2).symm
        subst hrr
        rw [show (r2.groups.contains g) = true from List.elem_eq_true_of_mem hg]
        rfl
      unfold fileAddUserToGroup
      rw [hany, hid]
      rfl
    · intro hg
      have hid : updateUser db u
          (fun r => { r with groups := r.groups.erase g }) = db := by
        apply updateUser_eq_self hnd
        intro r2 hr2
        rw [hr] at hr2
        have hrr : r2 = r := (Option.some.inj hr2).symm
        subst hrr
        rw [List.erase_of_not_mem hg]
      unfold fileRemoveUserFromGroup
      rw [hany, hid]
      rfl
  · intro h
    have hany := lookup_none_any h
    constructor
    · unfold fileAddUserToGroup
      rw [hany]
      rfl
    · unfold fileRemoveUserFromGroup
      rw [hany]
      rfl
  · intro hm
    unfold sqlAddUserToGroup
    rw [show (sdb.memberships.contains (u, g)) = true from
      List.elem_eq_true_of_mem hm]
    rfl

/-- C4 witness: the amended theorem applied to concrete stores. -/
theorem membership_idempotent_amended_witness :
    fileAddUserToGroup dbW "alice" "ops" = .ok (true, dbW) ∧
    fileAddUserToGroup dbW "bob" "ops" = .error .userNotFound ∧
    fileRemoveUserFromGroup dbW "bob" "ops" = .error .userNotFound ∧
    sqlAddUserToGroup sdbC4 "alice" "ops" = (false, sdbC4) := by
  have h1 := membership_idempotent_amended dbW sdbC4 "alice" "ops" (by decide)
  have h2 := membership_idempotent_amended dbW sdbC4 "bob" "ops" (by decide)
  refine ⟨?_, ?_, ?_, ?_⟩
  · exact (h1.1 recW (by decide)).1 (by decide)
  · exact (h2.2.1 (by decide)).1
  · exact (h2.2.1 (by decide)).2
  · exact h1.2.2 (by decide)

/-- C5: in both stores a second addUser for an existing username returns
false and leaves the state — in particular the stored password hash —
untouched; for an absent username it returns true and appends a fresh
user with an empty group set and blank profile fields (for the SQL store
the freshly created row acquires no join rows, so its group set is empty
whenever no stale membership rows mention the name). -/
theorem addUser_idempotent_false
    (hash : String → String) (db : FileDB) (sdb : SQLDB) (u p p2 : String) :
    (db.users.any (fun e => e.1 == u) = true →
      fileAddUser hash db u p2 = (false, db)) ∧
    (db.users.any (fun e => e.1 == u) = false →
      fileAddUser hash db u p =
        (true, ⟨db.users ++ [(u, ⟨hash p, [], "", "", ""⟩)], db.groups⟩)) ∧
    (sdb.users.any (fun r => r.username == u) = true →
      sqlAddUser hash sdb u p2 = (false, sdb)) ∧
    (sdb.users.any (fun r => r.username == u) = false →
      sqlAddUser hash sdb u p =
        (true, ⟨sdb.users ++ [⟨u, hash p, "", "", ""⟩], sdb.groups,
                sdb.memberships⟩) ∧
      ((∀ m ∈ sdb.memberships, m.1 ≠ u) →
        sqlGetUserGroups
          ⟨sdb.users ++ [⟨u, hash p, "", "", ""⟩], sdb.groups,
           sdb.memberships⟩ u = [])) := by
  refine ⟨?_, ?_, ?_, ?_⟩
  · intro h
    unfold fileAddUser
    rw [h]
    rfl
  · intro h
    unfold fileAddUser
    rw [h]
    rfl
  · intro h
    unfold sqlAddUser
    rw [h]
    rfl
  · intro h
    refine ⟨?_, ?_⟩
    · unfold sqlAddUser
      rw [h]
      rfl
    · intro hnm
      unfold sqlGetUserGroups
      have hfil : sdb.memberships.filter (fun m => m.1 == u) = [] := by
        rw [List.filter_eq_nil_iff]
        intro m hm
        simp [hnm m hm]
      simp only [hfil]
      rfl

/-- C5 witness: the theorem applied to concrete stores. -/
theorem addUser_idempotent_false_witness :
    fileAddUser hashX dbW "alice" "other" = (false, dbW) ∧
    fileAddUser hashX dbW "bob" "pw2" =
      (true, ⟨[("alice", recW), ("bob", ⟨hashX "pw2", [], "", "", ""⟩)],
              ["ops"]⟩) ∧
    sqlAddUser hashX sdbC4 "alice" "other" = (false, sdbC4) := by
  have h := addUser_idempotent_false hashX dbW sdbC4 "alice" "pw" "other"
  have h2 := addUser_idempotent_false hashX dbW sdbC4 "bob" "pw2" "other"
  exact ⟨h.1 (by decide), h2.2.1 (by decide), h.2.2.1 (by decide)⟩

/-- C6: with a valid signature, renewal strictly after the renewal
deadline fails with the uniform expired-token response and no new token;
renewal at or before the deadline (subject present in the store) issues a
new token — note that no password occurs anywhere among the inputs of
this path; and a token whose signature does not verify is rejected even
though the renewal decode ignores expiration. -/
theorem renewal_deadline_and_signature
    (cfg : Config) (db : FileDB) (st : SignedToken) (now : Int) (r : UserRec)
    (hr : db.users.lookup st.claims.username = some r) :
    (st.sigValid = true → st.claims.renewalExpirationDate < now →
      renewTokenParsedRequest cfg db st now =
        .fail ⟨401, false, some "Expired token"⟩) ∧
    (st.sigValid = true → now ≤ st.claims.renewalExpirationDate →
      renewTokenParsedRequest cfg db st now =
        .renewed ⟨now + cfg.tokenLifetime,
                  now + cfg.tokenLifetime + cfg.tokenIdleTimeout,
                  st.claims.username, some r.groups,
                  r.email, r.firstName, r.lastName⟩) ∧
    (st.sigValid = false →
      renewTokenParsedRequest cfg db st now =
        .fail ⟨401, false, some "Expired token"⟩) := by
  refine ⟨?_, ?_, ?_⟩
  · intro hsig hlt
    simp [renewTokenParsedRequest, jwtVerify, hsig, hlt]
  · intro hsig hle
    simp [renewTokenParsedRequest, jwtVerify, fileGetUser, hsig, hr,
      not_lt.mpr hle]
  · intro hsig
    simp [renewTokenParsedRequest, jwtVerify, hsig]

/-- C6 witness: the theorem applied at a renewal after the deadline, a
renewal before it, and a token with a broken signature. -/
theorem renewal_deadline_and_signature_witness :
    renewTokenParsedRequest cfgX dbC2 stX 6000 =
      .fail ⟨401, false, some "Expired token"⟩ ∧
    renewTokenParsedRequest cfgX dbC2 stX 10 =
      .renewed ⟨20, 25, "u", some ["A"], "", "", ""⟩ ∧
    renewTokenParsedRequest cfgX dbC2 ⟨stX.claims, false⟩ 10 =
      .fail ⟨401, false, some "Expired token"⟩ := by
  have h1 := renewal_deadline_and_signature cfgX dbC2 stX 6000
    ⟨"H", ["A"], "", "", ""⟩ (by decide)
  have h2 := renewal_deadline_and_signature cfgX dbC2 stX 10
    ⟨"H", ["A"], "", "", ""⟩ (by decide)
  have h3 := renewal_deadline_and_signature cfgX dbC2 ⟨stX.claims, false⟩ 10
    ⟨"H", ["A"], "", "", ""⟩ (by decide)
  exact ⟨h1.1 rfl (by decide), h2.2.1 rfl (by decide), h3.2.2 rfl⟩

/-- C7 counterexample: a signature-valid token with exp = 5000 and
renewal deadline 5000 is successfully renewed at time 10 < deadline with
tokenLifetime = 10 > 0, yet the new exp is 20, which is *not* strictly
greater than the original exp 5000: the claimed monotonicity fails when
renewal happens before the original expiry overtaken by a large exp. -/
theorem renewal_monotonicity_counterexample :
    (0 : Int) < cfgX.tokenLifetime ∧
    (10 : Int) < stX.claims.renewalExpirationDate ∧
    renewTokenParsedRequest cfgX dbC2 stX 10 =
      .renewed ⟨20, 25, "u", some ["A"], "", "", ""⟩ ∧
    ¬ stX.claims.exp < (20 : Int) :=
  ⟨by decide, by decide, rfl, by decide⟩

/-- C7 (amended): a token renewed at t < renewalDeadline yields
new.exp = t + tokenLifetime and new.renewalDeadline = new.exp +
tokenIdleTimeout; the new exp is strictly greater than the original exp
whenever tokenLifetime > 0 *and* the renewal happens no earlier than the
original expiry (in particular for any already-expired token). -/
theorem renewal_monotonicity_amended
    (cfg : Config) (db : FileDB) (st : SignedToken) (now : Int) (r : UserRec)
    (hsig : st.sigValid = true)
    (hdl : now < st.claims.renewalExpirationDate)
    (hr : db.users.lookup st.claims.username = some r) :
    ∃ c, renewTokenParsedRequest cfg db st now = .renewed c ∧
      c.exp = now + cfg.tokenLifetime ∧
      c.renewalExpirationDate = c.exp + cfg.tokenIdleTimeout ∧
      (0 < cfg.tokenLifetime → st.claims.exp ≤ now → st.claims.exp < c.exp) := by
  refine ⟨⟨now + cfg.tokenLifetime,
           now + cfg.tokenLifetime + cfg.tokenIdleTimeout,
           st.claims.username, some r.groups,
           r.email, r.firstName, r.lastName⟩, ?_, rfl, rfl, ?_⟩
  · simp [renewTokenParsedRequest, jwtVerify, fileGetUser, hsig, hr,
      not_lt.mpr (le_of_lt hdl)]
  · intro hL hle
    simp only
    omega

/-- C7 witness: the amended theorem at the concrete counterexample data. -/
theorem renewal_monotonicity_amended_witness :
    ∃ c, renewTokenParsedRequest cfgX dbC2 stX 10 = .renewed c ∧
      c.exp = 10 + cfgX.tokenLifetime ∧
      c.renewalExpirationDate = c.exp + cfgX.tokenIdleTimeout ∧
      (0 < cfgX.tokenLifetime → stX.claims.exp ≤ 10 → stX.claims.exp < c.exp) :=
  renewal_monotonicity_amended cfgX dbC2 stX 10 ⟨"H", ["A"], "", "", ""⟩
    rfl (by decide) (by decide)

/-- C1: for a signature-verified, non-expired token fed to the group
gate (with the store capability present), a token without a groups claim
is denied, and otherwise access is permitted exactly when the token's
groups intersect the allow list or, failing that, the store lookup of
the subject's current groups succeeds and intersects it; in particular
both-disjoint yields the uniform denial. -/
theorem allowGroups_permit_iff
    (allowed : List String) (db : FileDB) (st : SignedToken) (now : Int)
    (tok : Claims) (hdec : jwtVerify st false now = .ok tok) :
    (tok.groups = none →
      allowGroups allowed (some db) (jwtVerify st false now) =
        .forbidden ⟨403, false, some "Forbidden"⟩) ∧
    (∀ tgs, tok.groups = some tgs →
      ((allowGroups allowed (some db) (jwtVerify st false now) = .next) ↔
        ((∃ g ∈ tgs, g ∈ allowed) ∨
         (∃ ugs, fileGetUserGroups db tok.username = .ok ugs ∧
                 ∃ g ∈ ugs, g ∈ allowed)))) := by
  rw [hdec]
  have hne : (GateOutcome.forbidden ⟨403, false, some "Forbidden"⟩) ≠
      GateOutcome.next := by simp
  constructor
  · intro hg
    simp [allowGroups, allowGroupsTry, Except.mapError, bind, Except.bind, hg]
  · intro tgs hg
    by_cases ht : ∃ g ∈ tgs, g ∈ allowed
    · have hnext : allowGroups allowed (some db) (.ok tok) = .next := by
        simp [allowGroups, allowGroupsTry, Except.mapError, bind, Except.bind,
          pure, Except.pure, hg, ht]
      exact iff_of_true hnext (Or.inl ht)
    · cases hlook : fileGetUserGroups db tok.username with
      | error e =>
        have hforb : allowGroups allowed (some db) (.ok tok) =
            .forbidden ⟨403, false, some "Forbidden"⟩ := by
          simp [allowGroups, allowGroupsTry, Except.mapError, bind, Except.bind,
            hg, ht, hlook]
        refine iff_of_false (fun h => ?_) ?_
        · rw [hforb] at h
          exact hne h
        · rintro (h | ⟨ugs2, hugs2, h⟩)
          · exact ht h
          · exact absurd hugs2 (by simp)
      | ok ugs =>
        by_cases hu : ∃ g ∈ ugs, g ∈ allowed
        · have hnext : allowGroups allowed (some db) (.ok tok) = .next := by
            simp [allowGroups, allowGroupsTry, Except.mapError, bind,
              Except.bind, pure, Except.pure, hg, ht, hlook, hu]
          exact iff_of_true hnext (Or.inr ⟨ugs, rfl, hu⟩)
        · have hforb : allowGroups allowed (some db) (.ok tok) =
              .forbidden ⟨403, false, some "Forbidden"⟩ := by
            simp [allowGroups, allowGroupsTry, Except.mapError, bind,
              Except.bind, hg, ht, hlook, hu]
          refine iff_of_false (fun h => ?_) ?_
          · rw [hforb] at h
            exact hne h
          · rintro (h | ⟨ugs2, hugs2, h⟩)
            · exact ht h
            · obtain rfl : ugs = ugs2 := Except.ok.inj hugs2
              exact hu h

/-- C1 witness: a verified token whose cached groups miss the allow list
gets through via the store fallback once the store lists group B. -/
theorem allowGroups_permit_iff_witness :
    allowGroups ["B"] (some dbC2B) (jwtVerify ⟨tokC2, true⟩ false 0) = .next := by
  have h := allowGroups_permit_iff ["B"] dbC2B ⟨tokC2, true⟩ 0 tokC2 rfl
  exact (h.2 ["A"] rfl).mpr (Or.inr ⟨["A", "B"], rfl, "B", by decide, by decide⟩)


/-- C9: an authentication attempt with an unknown username and one with a
known username but wrong password produce the identical external
response, the bare 401; and every authorization denial — decode failure
of any kind (bad signature, expired) or insufficient groups after both
the cached and the re-fetched test — produces the identical literal
response 403 Forbidden. -/
theorem uniform_denial_outcomes
    (verify : String → String → Bool) (cfg : Config) (db : FileDB)
    (u1 u2 p1 p2 : String) (now : Int) (r : UserRec)
    (h1 : db.users.lookup u1 = none)
    (h2 : db.users.lookup u2 = some r)
    (hv : verify p2 r.password = false)
    (allowed : List String) (adb : Option FileDB) (tok : Claims)
    (tgs ugs : List String)
    (hg : tok.groups = some tgs)
    (ht : ¬ ∃ g ∈ tgs, g ∈ allowed)
    (hl : fileGetUserGroups db tok.username = .ok ugs)
    (hu : ¬ ∃ g ∈ ugs, g ∈ allowed) :
    (authenticateParsedRequest verify cfg db u1 p1 now =
       authenticateParsedRequest verify cfg db u2 p2 now ∧
     authenticateParsedRequest verify cfg db u1 p1 now =
       .fail ⟨401, false, none⟩) ∧
    (∀ e : JwtError, allowGroups allowed adb (.error e) =
       .forbidden ⟨403, false, some "Forbidden"⟩) ∧
    allowGroups allowed (some db) (.ok tok) =
       .forbidden ⟨403, false, some "Forbidden"⟩ := by
  refine ⟨⟨?_, ?_⟩, ?_, ?_⟩
  · simp [authenticateParsedRequest, fileAuthenticateUser, h1, h2, hv]
  · simp [authenticateParsedRequest, fileAuthenticateUser, h1]
  · intro e
    simp [allowGroups, allowGroupsTry, Except.mapError, bind, Except.bind]
  · simp [allowGroups, allowGroupsTry, Except.mapError, bind, Except.bind,
      hg, ht, hl, hu]

/-- C9 witness: the theorem at a concrete store, a concrete unknown user,
a concrete wrong password, and concrete denial inputs. -/
theorem uniform_denial_outcomes_witness :
    authenticateParsedRequest verifyX cfgX dbW "mallory" "x" 0 =
      authenticateParsedRequest verifyX cfgX dbW "alice" "wrong" 0 ∧
    allowGroups ["admin"] none (.error .invalidSignature) =
      .forbidden ⟨403, false, some "Forbidden"⟩ ∧
    allowGroups ["admin"] none (.error .expired) =
      .forbidden ⟨403, false, some "Forbidden"⟩ ∧
    allowGroups ["admin"] (some dbW) (.ok tokW9) =
      .forbidden ⟨403, false, some "Forbidden"⟩ := by
  have h := uniform_denial_outcomes verifyX cfgX dbW "mallory" "alice" "x"
    "wrong" 0 recW (by decide) (by decide) (by decide) ["admin"] none tokW9
    ["ops"] ["ops"] rfl (by decide) rfl (by decide)
  exact ⟨h.1.1, h.2.1 .invalidSignature, h.2.1 .expired, h.2.2⟩


/-- C10: the promise returned by decodeToken of src/JWT.js stays pending
exactly when the request carries no Authorization header — the executor
then returns without calling resolve or reject, so an awaiting caller
never completes — while a present but malformed header is rejected with
the header parse error. -/
theorem decodeToken_no_header_pending
    (req : HttpRequest) (verify : String → Except JwtError Claims) :
    (decodeTokenJWT req verify = .pending ↔ req.authorization = none) ∧
    (∀ h, req.authorization = some h →
      ¬(2 ≤ (jsSplitSpace h).length ∧
        jsToLower ((jsSplitSpace h).headD "") = "bearer") →
      decodeTokenJWT req verify = .rejected .headerParseError) := by
  obtain ⟨auth⟩ := req
  constructor
  · constructor
    · intro hp
      cases auth with
      | none => rfl
      | some h =>
        exfalso
        dsimp only [decodeTokenJWT] at hp
        by_cases hshape : 2 ≤ (jsSplitSpace h).length ∧
            jsToLower ((jsSplitSpace h).headD "") = "bearer"
        · rw [if_pos hshape] at hp
          cases hv : verify ((jsSplitSpace h).getD 1 "") with
          | ok c => rw [hv] at hp; simp at hp
          | error e => rw [hv] at hp; simp at hp
        · rw [if_neg hshape] at hp
          simp at hp
    · intro hn
      simp only at hn
      rw [hn]
      rfl
  · intro h hreq hshape
    simp only at hreq
    rw [hreq]
    dsimp only [decodeTokenJWT]
    rw [if_neg hshape]

/-- C10 witness: a request with no header stays pending; a header of the
wrong scheme is rejected with the parse error. -/
theorem decodeToken_no_header_pending_witness :
    decodeTokenJWT ⟨none⟩ verifyNone = .pending ∧
    decodeTokenJWT ⟨some "Token xyz"⟩ verifyNone =
      .rejected .headerParseError := by
  constructor
  · exact (decodeToken_no_header_pending ⟨none⟩ verifyNone).1.mpr rfl
  · exact (decodeToken_no_header_pending ⟨some "Token xyz"⟩ verifyNone).2
      "Token xyz" rfl (by decide)
